import Mathlib

/-!
# sockjsclient: the XHR long-polling session

A shallow embedding of `sockjsclient/xhr.go`: the handshake `NewXHRSession`, the
poll loop of `XHRSession.Recv`, `XHRSession.Send` and `XHRSession.Close`.

The HTTP client is an explicit value `Net`: a script of the outcomes the next
requests will get, and the log of the requests issued so far.  Bytes are
natural numbers; the message of `Send` and the bodies of requests and responses
are byte sequences; addresses and queued messages are `String`; a Go `error` is
`Option GoError`.
Diagnostic printing (`fmt.Printf`) and `defer resp.Body.Close()` touch neither
the session nor the requests and are left out.
-/

namespace sockjsclient

/-! ## Errors, requests and responses -/

/-- Go error values that the session code creates or passes on. -/
inductive GoError where
  /-- The value of errors.New("connection is not opened yet"). -/
  | notOpened
  /-- The value of errors.New("invalid frame type"). -/
  | invalidFrameType
  /-- The value of errors.New("no message"). -/
  | noMessage
  /-- The value of errors.New("not implemented yet"). -/
  | notImplemented
  /-- The value of fmt.Errorf("can't start session, invalid frame: %s", frame). -/
  | invalidFrame (frame : Nat)
  /-- The value io.EOF. -/
  | eof
  /-- The value io.ErrNoProgress. -/
  | noProgress
  /-- The encoding/json syntax error "unexpected end of JSON input". -/
  | unexpectedEndOfJSON
  /-- Any other error of the HTTP client, of a body stream or of the JSON decoder. -/
  | other (msg : String)
  deriving DecidableEq, Repr

/-- An HTTP request as the client issues it. The body is `none` for a nil body and
the bytes of the body otherwise. -/
structure Request where
  method : String
  url : String
  body : Option (List Nat)
  deriving DecidableEq, Repr

/-- An HTTP response as the session code can observe it: the status, and what the
first read of the body stream delivers, namely some bytes and the error (if any)
that the stream reported together with them. -/
structure Response where
  status : Nat
  body : List Nat
  readErr : Option GoError
  deriving DecidableEq, Repr

/-- What one call of the HTTP client returns: an error, or a response. -/
inductive Outcome where
  | fail (err : GoError)
  | resp (r : Response)
  deriving DecidableEq, Repr

/-- The HTTP client together with the server behind it: the outcomes of the
requests still to come, and the requests issued so far. -/
structure Net where
  script : List Outcome
  log : List Request
  deriving DecidableEq, Repr

/-- The error of the client once the script has no outcome left. -/
def noResponse : GoError := GoError.other "no response"

/-- One request: it is logged and gets the next outcome of the script; a request
beyond the end of the script fails. -/
def Net.roundTrip (n : Net) (r : Request) : Outcome × Net :=
  match n.script with
  | [] => (Outcome.fail noResponse, { n with log := n.log ++ [r] })
  | o :: rest => (o, { script := rest, log := n.log ++ [r] })

/-- The call client.Get(url). -/
def Net.Get (n : Net) (url : String) : Outcome × Net :=
  n.roundTrip { method := "GET", url := url, body := none }

/-- The call client.Post(url, "text/plain", body). -/
def Net.Post (n : Net) (url : String) (body : Option (List Nat)) : Outcome × Net :=
  n.roundTrip { method := "POST", url := url, body := body }

/-- The bytes of an ASCII string. -/
def asciiBytes (s : String) : List Nat := s.data.map Char.toNat

/-! ## bufio.Reader over a response body -/

/-- A bufio.Reader after its first fill: the buffered bytes not yet read and the
pending error of the underlying stream. -/
structure Reader where
  buf : List Nat
  err : Option GoError
  deriving DecidableEq, Repr

/-- The call bufio.NewReader(resp.Body). -/
def NewReader (r : Response) : Reader := { buf := r.body, err := r.readErr }

/-- The method ReadByte: the next buffered byte; with nothing buffered, the pending
error of the stream (io.ErrNoProgress when the stream gave neither data nor error). -/
def Reader.ReadByte (b : Reader) : Except GoError (Nat × Reader) :=
  match b.buf with
  | c :: rest => Except.ok (c, { b with buf := rest })
  | [] => Except.error (b.err.getD GoError.noProgress)

/-- The method Read(p) for a slice p of length len: the bytes copied into p, the
error, and the reader afterwards. For len = 0 nothing is copied: the result is
(0, nil) when bytes are buffered and (0, b.readErr()) otherwise. -/
def Reader.Read (b : Reader) (len : Nat) : List Nat × Option GoError × Reader :=
  if len = 0 then
    if b.buf.length > 0 then ([], none, b) else ([], b.err, { b with err := none })
  else
    match b.buf with
    | [] => ([], some (b.err.getD GoError.eof), { b with err := none })
    | _ :: _ => (b.buf.take len, none, { b with buf := b.buf.drop len })

/-! ## unicode/utf8 and encoding/json on string slices

A Go string is its sequence of bytes, a `List Nat`; it need not be valid UTF-8. -/

/-- The rune utf8.RuneError, U+FFFD. -/
def RuneError : Nat := 65533

/-- The tables first and acceptRanges of unicode/utf8 at a lead byte that is not
ASCII: the size of the encoding and the accepted range of the second byte, or
none for a byte that starts no encoding. -/
def leadByte (s0 : Nat) : Option (Nat × Nat × Nat) :=
  if 194 ≤ s0 ∧ s0 ≤ 223 then some (2, 128, 191)
  else if s0 = 224 then some (3, 160, 191)
  else if (225 ≤ s0 ∧ s0 ≤ 236) ∨ s0 = 238 ∨ s0 = 239 then some (3, 128, 191)
  else if s0 = 237 then some (3, 128, 159)
  else if s0 = 240 then some (4, 144, 191)
  else if 241 ≤ s0 ∧ s0 ≤ 243 then some (4, 128, 191)
  else if s0 = 244 then some (4, 128, 143)
  else none

/-- The function utf8.DecodeRuneInString: the first rune of s and the number of bytes
of its encoding; (RuneError, 1) when s does not start with a valid encoding and
(RuneError, 0) when s is empty. The masks and shifts are written as remainders
and products. -/
def DecodeRuneInString (s : List Nat) : Nat × Nat :=
  match s with
  | [] => (RuneError, 0)
  | s0 :: t =>
    if s0 < 128 then (s0, 1)
    else
      match leadByte s0 with
      | none => (RuneError, 1)
      | some (sz, lo, hi) =>
        if s.length < sz then (RuneError, 1)
        else
          match t with
          | [] => (RuneError, 1)
          | s1 :: t1 =>
            if s1 < lo ∨ hi < s1 then (RuneError, 1)
            else if sz ≤ 2 then (s0 % 32 * 64 + s1 % 64, 2)
            else
              match t1 with
              | [] => (RuneError, 1)
              | s2 :: t2 =>
                if s2 < 128 ∨ 191 < s2 then (RuneError, 1)
                else if sz ≤ 3 then (s0 % 16 * 4096 + s1 % 64 * 64 + s2 % 64, 3)
                else
                  match t2 with
                  | [] => (RuneError, 1)
                  | s3 :: _ =>
                    if s3 < 128 ∨ 191 < s3 then (RuneError, 1)
                    else (s0 % 8 * 262144 + s1 % 64 * 4096 + s2 % 64 * 64 + s3 % 64, 4)

/-- The table htmlSafeSet of encoding/json: the ASCII bytes written as they are,
namely 0x20 to 0x7f except the double quote, ampersand, less-than, greater-than
and backslash. -/
def htmlSafeSet (b : Nat) : Bool :=
  decide (32 ≤ b) && decide (b < 128) && decide (b ≠ 34) && decide (b ≠ 38) && decide (b ≠ 60)
    && decide (b ≠ 62) && decide (b ≠ 92)

/-- The table hex of encoding/json: the digit of a value below 16. -/
def hex (n : Nat) : Nat := (asciiBytes "0123456789abcdef").getD n 48

/-- The switch of appendString on an ASCII byte outside htmlSafeSet: the bytes
written for it. 92 is the backslash. -/
def escapeByte (b : Nat) : List Nat :=
  if b = 92 ∨ b = 34 then [92, b]
  else if b = 8 then [92, 'b'.toNat]
  else if b = 12 then [92, 'f'.toNat]
  else if b = 10 then [92, 'n'.toNat]
  else if b = 13 then [92, 'r'.toNat]
  else if b = 9 then [92, 't'.toNat]
  else [92, 'u'.toNat, '0'.toNat, '0'.toNat, hex (b / 16), hex (b % 16)]

/-- The loop of appendString of encoding/json (escapeHTML on) from index i on, src
being the bytes from i: what it appends between the two double quotes. Every
iteration consumes at least one byte, and fuel bounds the iterations. The decoder
reads at most four bytes, so src is handed to it whole. -/
def appendStringLoop : Nat → List Nat → List Nat
  | 0, _ => []
  | fuel + 1, src =>
    match src with
    | [] => []
    | b :: t =>
      if b < 128 then
        if htmlSafeSet b then b :: appendStringLoop fuel t
        else escapeByte b ++ appendStringLoop fuel t
      else
        if (DecodeRuneInString src).1 = RuneError ∧ (DecodeRuneInString src).2 = 1 then
          [92, 'u'.toNat, 'f'.toNat, 'f'.toNat, 'f'.toNat, 'd'.toNat] ++ appendStringLoop fuel t
        else if (DecodeRuneInString src).1 = 8232 ∨ (DecodeRuneInString src).1 = 8233 then
          -- U+2028 is LINE SEPARATOR. U+2029 is PARAGRAPH SEPARATOR.
          [92, 'u'.toNat, '2'.toNat, '0'.toNat, '2'.toNat, hex ((DecodeRuneInString src).1 % 16)]
            ++ appendStringLoop fuel (src.drop (DecodeRuneInString src).2)
        else
          src.take (DecodeRuneInString src).2
            ++ appendStringLoop fuel (src.drop (DecodeRuneInString src).2)

/-- The function appendString of encoding/json: the JSON string literal of src. -/
def appendString (src : List Nat) : List Nat :=
  34 :: (appendStringLoop src.length src ++ [34])

/-- The elements of a JSON array, separated by commas. -/
def jsonElements : List (List Nat) → List Nat
  | [] => []
  | [s] => appendString s
  | s :: rest => appendString s ++ ','.toNat :: jsonElements rest

/-- The call json.Marshal(&message) for a non-nil message []string: it cannot fail. -/
def jsonMarshal (message : List (List Nat)) : List Nat :=
  '['.toNat :: (jsonElements message ++ [']'.toNat])

/-- The call json.Unmarshal(data, &messages) for messages []string. Empty data is
rejected with "unexpected end of JSON input"; any other data is handed to decode,
the decoder of the library. -/
def jsonUnmarshal (decode : List Nat → Except GoError (List String)) (data : List Nat) :
    Except GoError (List String) :=
  if data = [] then Except.error GoError.unexpectedEndOfJSON else decode data

/-! ## The session -/

/-- The struct XHRSession; the client field is the `Net` passed to every operation. -/
structure XHRSession where
  sessionURL : String
  messages : List String
  opened : Bool
  deriving DecidableEq, Repr

/-- The fields of DialOptions that NewXHRSession reads. -/
structure DialOptions where
  BaseURL : String
  Timeout : Nat
  deriving DecidableEq, Repr

/-- The struct info, returned from a SockJS Base_URL+/info path. -/
structure info where
  Websocket : Bool
  CookieNeeded : Bool
  Origins : List String
  Entropy : Int
  deriving DecidableEq, Repr

/-- The function NewXHRSession. The decoder of the /info body (decodeInfo) and the
two random tokens (the results of threeDigits() and randomStringLength(20)) are
parameters. -/
def NewXHRSession (decodeInfo : Response → Except GoError info) (serverID sessionID : String)
    (opts : DialOptions) (n : Net) : Except GoError XHRSession × Net :=
  match n.Get (opts.BaseURL ++ "/info") with
  | (Outcome.fail err, n1) => (Except.error err, n1)
  | (Outcome.resp resp, n1) =>
    match decodeInfo resp with
    | Except.error err => (Except.error err, n1)
    | Except.ok _ =>
      let sessionURL := opts.BaseURL ++ "/" ++ serverID ++ "/" ++ sessionID
      -- start the initial session handshake
      match n1.Post (sessionURL ++ "/xhr") none with
      | (Outcome.fail err, n2) => (Except.error err, n2)
      | (Outcome.resp sessionResp, n2) =>
        match (NewReader sessionResp).ReadByte with
        | Except.error err => (Except.error err, n2)
        | Except.ok (frame, _) =>
          if frame ≠ 'o'.toNat then (Except.error (GoError.invalidFrame frame), n2)
          else (Except.ok { sessionURL := sessionURL, messages := [], opened := true }, n2)

/-- The method ID. -/
def XHRSession.ID (_x : XHRSession) : String := ""

/-- How one pass through the body of the for loop of Recv ends. -/
inductive Flow where
  /-- The loop goes on with its next iteration: a continue statement, or the switch
  statement is over (by a break inside it, or at the end of a case). -/
  | next (x : XHRSession)
  /-- The for loop itself is left and the statements after it run. -/
  | leave (x : XHRSession)
  /-- A return statement. -/
  | ret (msg : String) (err : Option GoError) (x : XHRSession)
  deriving DecidableEq, Repr

/-- The body of the for loop of Recv from the outcome of its Post on: reading the
frame byte and the switch on it. -/
def recvFrame (decode : List Nat → Except GoError (List String)) (x : XHRSession)
    (o : Outcome) : Flow :=
  match o with
  | Outcome.fail err => Flow.ret "" (some err) x
  | Outcome.resp resp =>
    match (NewReader resp).ReadByte with
    | Except.error err => Flow.ret "" (some err) x
    | Except.ok (frame, buf) =>
      if frame = 'o'.toNat then
        -- session started
        Flow.next { x with opened := true }
      else if frame = 'a'.toNat then
        -- var data []byte: a nil slice, of length 0
        let len := 0
        match buf.Read len with
        | (_, some err, _) => Flow.ret "" (some err) x
        | (data, none, _) =>
          match jsonUnmarshal decode data with
          | Except.error err => Flow.ret "" (some err) x
          | Except.ok messages =>
            -- the break ends the switch statement, not the for loop
            Flow.next { x with messages := x.messages ++ messages }
      else if frame = 'h'.toNat then
        -- heartbeat received
        Flow.next x
      else if frame = 'c'.toNat then
        -- close received: the case is empty and nothing falls through
        Flow.next x
      else Flow.ret "" (some GoError.invalidFrameType) x

/-- The statements of Recv after the for loop. -/
def recvAfterLoop (x : XHRSession) : (String × Option GoError) × XHRSession :=
  match x.messages with
  | [] => (("", some GoError.noMessage), x)
  | msg :: rest => ((msg, none), { x with messages := rest })

/-- The for loop of Recv and what follows it. Every iteration posts to
sessionURL + "/xhr" and takes the next outcome of the script; once the script is
used up the Post fails, which returns. -/
def recvLoop (decode : List Nat → Except GoError (List String)) :
    List Outcome → List Request → XHRSession → (String × Option GoError) × XHRSession × Net
  | [], log, x =>
    match recvFrame decode x (Outcome.fail noResponse) with
    | Flow.next x1 => (("", some noResponse), x1, Net.mk [] (log ++ [Request.mk "POST" (x.sessionURL ++ "/xhr") none]))
    | Flow.leave x1 =>
      ((recvAfterLoop x1).1, (recvAfterLoop x1).2,
        Net.mk [] (log ++ [Request.mk "POST" (x.sessionURL ++ "/xhr") none]))
    | Flow.ret msg err x1 =>
      ((msg, err), x1, Net.mk [] (log ++ [Request.mk "POST" (x.sessionURL ++ "/xhr") none]))
  | o :: rest, log, x =>
    match recvFrame decode x o with
    | Flow.next x1 =>
      recvLoop decode rest (log ++ [Request.mk "POST" (x.sessionURL ++ "/xhr") none]) x1
    | Flow.leave x1 =>
      ((recvAfterLoop x1).1, (recvAfterLoop x1).2,
        Net.mk rest (log ++ [Request.mk "POST" (x.sessionURL ++ "/xhr") none]))
    | Flow.ret msg err x1 =>
      ((msg, err), x1, Net.mk rest (log ++ [Request.mk "POST" (x.sessionURL ++ "/xhr") none]))

/-- The method Recv: the returned (string, error), the session and the client
afterwards. -/
def XHRSession.Recv (decode : List Nat → Except GoError (List String)) (x : XHRSession)
    (n : Net) : (String × Option GoError) × XHRSession × Net :=
  -- Return previously received messages if there is any.
  match x.messages with
  | msg :: rest => ((msg, none), { x with messages := rest }, n)
  | [] => recvLoop decode n.script n.log x

/-- The method Send: the returned error, the session and the client afterwards. -/
def XHRSession.Send (x : XHRSession) (frame : List Nat) (n : Net) :
    Option GoError × XHRSession × Net :=
  if !x.opened then (some GoError.notOpened, x, n)
  else
    let message := [frame]
    let body := jsonMarshal message
    match n.Post (x.sessionURL ++ "/xhr_send") (some body) with
    | (Outcome.fail err, n1) => (some err, x, n1)
    | (Outcome.resp _, n1) => (none, x, n1)

/-- The method Close: the returned error and the session afterwards. -/
def XHRSession.Close (x : XHRSession) (_status : Nat) (_reason : String) :
    Option GoError × XHRSession :=
  (some GoError.notImplemented, x)

/-! ## Auxiliary definitions for the statements -/

/-- The frame byte of an outcome: the first byte of the body of a response. -/
def frameByte : Outcome → Option Nat
  | Outcome.fail _ => none
  | Outcome.resp r => r.body.head?

/-- The request of one poll of the session. -/
def pollRequest (x : XHRSession) : Request :=
  { method := "POST", url := x.sessionURL ++ "/xhr", body := none }

/-- The error, if any, with which one iteration of the poll loop returns. -/
def pollError (o : Outcome) : Option GoError :=
  match o with
  | Outcome.fail err => some err
  | Outcome.resp r =>
    match r.body with
    | [] => some (r.readErr.getD GoError.noProgress)
    | frame :: payload =>
      if frame = 'o'.toNat then none
      else if frame = 'a'.toNat then
        if payload.length > 0 then some GoError.unexpectedEndOfJSON
        else some (r.readErr.getD GoError.unexpectedEndOfJSON)
      else if frame = 'h'.toNat then none
      else if frame = 'c'.toNat then none
      else some GoError.invalidFrameType

/-- A call of one of the methods of a session. -/
inductive Call where
  | recv
  | send (frame : List Nat)
  | close (status : Nat) (reason : String)
  deriving DecidableEq, Repr

/-- One call on a session: the session and the client afterwards. -/
def Call.apply (decode : List Nat → Except GoError (List String)) (c : Call)
    (x : XHRSession) (n : Net) : XHRSession × Net :=
  match c with
  | Call.recv => (XHRSession.Recv decode x n).2
  | Call.send frame => (XHRSession.Send x frame n).2
  | Call.close status reason => ((XHRSession.Close x status reason).2, n)

/-- A sequence of calls on a session, one after the other. -/
def runCalls (decode : List Nat → Except GoError (List String)) :
    List Call → XHRSession → Net → XHRSession × Net
  | [], x, n => (x, n)
  | c :: rest, x, n => runCalls decode rest (c.apply decode x n).1 (c.apply decode x n).2

/-! ### JSON text, read back

A decoder of JSON text for arrays of strings, written from the JSON grammar
(RFC 8259) and independent of the encoder above. -/

/-- The value of a hexadecimal digit, in either case. -/
def hexValue (d : Nat) : Option Nat :=
  if 48 ≤ d ∧ d ≤ 57 then some (d - 48)
  else if 97 ≤ d ∧ d ≤ 102 then some (d - 87)
  else if 65 ≤ d ∧ d ≤ 70 then some (d - 55)
  else none

/-- The value of four hexadecimal digits. -/
def hexValue4 (h1 h2 h3 h4 : Nat) : Option Nat :=
  match hexValue h1, hexValue h2, hexValue h3, hexValue h4 with
  | some a, some b, some c, some d => some (((a * 16 + b) * 16 + c) * 16 + d)
  | _, _, _, _ => none

/-- The UTF-8 encoding of a code point; U+FFFD for a surrogate or a value out of range. -/
def utf8Encode (v : Nat) : List Nat :=
  if v < 128 then [v]
  else if v < 2048 then [192 + v / 64, 128 + v % 64]
  else if 55296 ≤ v ∧ v ≤ 57343 then [239, 191, 189]
  else if v < 65536 then [224 + v / 4096, 128 + v / 64 % 64, 128 + v % 64]
  else if v < 1114112 then
    [240 + v / 262144, 128 + v / 4096 % 64, 128 + v / 64 % 64, 128 + v % 64]
  else [239, 191, 189]

/-- The character of a two-character escape of JSON: the byte after the backslash
to the byte it stands for. -/
def unescape (e : Nat) : Option Nat :=
  if e = 34 then some 34
  else if e = 92 then some 92
  else if e = '/'.toNat then some '/'.toNat
  else if e = 'b'.toNat then some 8
  else if e = 'f'.toNat then some 12
  else if e = 'n'.toNat then some 10
  else if e = 'r'.toNat then some 13
  else if e = 't'.toNat then some 9
  else none

/-- The bytes to write for a high surrogate escape that no low surrogate escape
followed: the encoding of U+FFFD, if there is such a pending escape. -/
def pendingBytes (pending : Option Nat) : List Nat :=
  match pending with
  | none => []
  | some _ => [239, 191, 189]

/-- The characters of a JSON string after its opening double quote: the string they
denote, as UTF-8 bytes, and the input after the closing double quote. A \u escape
denotes its code point, and a high surrogate escape directly followed by a low
surrogate escape denotes the code point of the pair; pending is the high
surrogate escape just read, if any. Control characters must be escaped. -/
def parseStringBody (pending : Option Nat) : List Nat → Option (List Nat × List Nat)
  | [] => none
  | b :: rest =>
    if b = 34 then some (pendingBytes pending, rest)
    else if b = 92 then
      match rest with
      | [] => none
      | e :: r =>
        if e = 'u'.toNat then
          match r with
          | h1 :: h2 :: h3 :: h4 :: r4 =>
            match hexValue4 h1 h2 h3 h4 with
            | none => none
            | some v =>
              if 55296 ≤ v ∧ v ≤ 56319 then
                (parseStringBody (some v) r4).map (fun q => (pendingBytes pending ++ q.1, q.2))
              else
                match pending with
                | some hi =>
                  if 56320 ≤ v ∧ v ≤ 57343 then
                    (parseStringBody none r4).map
                      (fun q => (utf8Encode (65536 + (hi - 55296) * 1024 + (v - 56320)) ++ q.1, q.2))
                  else
                    (parseStringBody none r4).map
                      (fun q => (pendingBytes pending ++ utf8Encode v ++ q.1, q.2))
                | none => (parseStringBody none r4).map (fun q => (utf8Encode v ++ q.1, q.2))
          | _ => none
        else
          match unescape e with
          | none => none
          | some c =>
            (parseStringBody none r).map (fun q => (pendingBytes pending ++ c :: q.1, q.2))
    else if b < 32 then none
    else (parseStringBody none rest).map (fun q => (pendingBytes pending ++ b :: q.1, q.2))

/-- Insignificant whitespace of JSON is skipped. -/
def skipSpace (s : List Nat) : List Nat :=
  s.dropWhile (fun b => b = 32 ∨ b = 9 ∨ b = 10 ∨ b = 13)

/-- The elements of a JSON array of strings after its opening bracket, up to the
closing bracket and the end of the text. The fuel bounds the number of elements. -/
def parseElements : Nat → List Nat → Option (List (List Nat))
  | 0, _ => none
  | fuel + 1, s =>
    match skipSpace s with
    | 34 :: body =>
      match parseStringBody none body with
      | none => none
      | some (str, rest) =>
        match skipSpace rest with
        | 44 :: more => (parseElements fuel more).map (fun l => str :: l)
        | 93 :: tail => if skipSpace tail = [] then some [str] else none
        | _ => none
    | _ => none

/-- A JSON text that is an array of strings: the strings, as UTF-8 bytes; none for
any other text. -/
def parseStringArray (text : List Nat) : Option (List (List Nat)) :=
  match skipSpace text with
  | 91 :: s =>
    match skipSpace s with
    | 93 :: tail => if skipSpace tail = [] then some [] else none
    | _ => parseElements text.length s
  | _ => none

/-- The string that the conversion string([]rune(s)) of Go gives: s with every byte
that starts no valid encoding replaced by the encoding of U+FFFD. -/
def toValidLoop : Nat → List Nat → List Nat
  | 0, _ => []
  | fuel + 1, src =>
    match src with
    | [] => []
    | _ :: t =>
      if (DecodeRuneInString src).1 = RuneError ∧ (DecodeRuneInString src).2 = 1 then
        [239, 191, 189] ++ toValidLoop fuel t
      else
        src.take (DecodeRuneInString src).2 ++ toValidLoop fuel (src.drop (DecodeRuneInString src).2)

/-- The bytes of s, invalid bytes replaced by U+FFFD. -/
def toValidUTF8 (s : List Nat) : List Nat := toValidLoop s.length s

/-- The function utf8.ValidString, by its loop: every position the decoder reaches
starts a valid encoding. -/
def validLoop : Nat → List Nat → Bool
  | 0, src => src.isEmpty
  | fuel + 1, src =>
    match src with
    | [] => true
    | _ :: _ =>
      if (DecodeRuneInString src).1 = RuneError ∧ (DecodeRuneInString src).2 = 1 then false
      else validLoop fuel (src.drop (DecodeRuneInString src).2)

/-- The function utf8.ValidString. -/
def ValidString (s : List Nat) : Bool := validLoop s.length s

/-- A session that is open and has an empty queue. -/
def openSession : XHRSession :=
  { sessionURL := "http://localhost:8080/sockjs/123/abcdefgh", messages := [], opened := true }

/-- A session that is not open. -/
def closedSession : XHRSession :=
  { sessionURL := "http://localhost:8080/sockjs/123/abcdefgh", messages := [], opened := false }

/-- A response with the given status whose body is the given ASCII text. -/
def textResponse (status : Nat) (body : String) : Response :=
  { status := status, body := asciiBytes body, readErr := none }

/-- A decoder of the library for the examples: it takes any non-empty input for the
array of the two strings "hello" and "world". -/
def helloWorldDecoder : List Nat → Except GoError (List String) :=
  fun _ => Except.ok ["hello", "world"]

/-- A decoder of the /info body for the examples. -/
def anyInfo : Response → Except GoError info :=
  fun _ => Except.ok { Websocket := true, CookieNeeded := false, Origins := ["*:*"], Entropy := 7 }

/-! ## Lemmas on the poll loop -/

/-- One iteration of the poll loop either returns the empty string with an error
and the session as it was, or goes on, having at most set opened. -/
theorem recvFrame_eq (decode : List Nat → Except GoError (List String)) (x : XHRSession)
    (o : Outcome) :
    recvFrame decode x o =
      match pollError o with
      | some err => Flow.ret "" (some err) x
      | none => Flow.next { x with opened := x.opened || (frameByte o == some 'o'.toNat) } := by
  cases o with
  | fail err => simp [recvFrame, pollError]
  | resp r =>
    rcases r with ⟨status, body, readErr⟩
    cases body with
    | nil => simp [recvFrame, pollError, NewReader, Reader.ReadByte]
    | cons frame payload =>
      simp only [recvFrame, pollError, NewReader, Reader.ReadByte, frameByte, List.head?]
      by_cases ho : frame = 'o'.toNat
      · simp [ho]
      · by_cases ha : frame = 'a'.toNat
        · subst ha
          cases payload with
          | nil =>
            cases readErr <;> simp [Reader.Read, jsonUnmarshal]
          | cons p ps => simp [Reader.Read, jsonUnmarshal]
        · by_cases hh : frame = 'h'.toNat
          · subst hh
            cases x; simp
          · by_cases hc : frame = 'c'.toNat
            · subst hc
              cases x; simp
            · simp only [Char.reduceToNat] at ho ha hh hc
              simp [ho, ha, hh, hc]

theorem recvFrame_ne_leave (decode : List Nat → Except GoError (List String)) (x x1 : XHRSession)
    (o : Outcome) : recvFrame decode x o ≠ Flow.leave x1 := by
  rw [recvFrame_eq]
  cases pollError o <;> simp

theorem recvLoop_nil (decode : List Nat → Except GoError (List String)) (log : List Request)
    (x : XHRSession) :
    recvLoop decode [] log x = (("", some noResponse), x, Net.mk [] (log ++ [pollRequest x])) := by
  simp [recvLoop, recvFrame, pollRequest]

theorem recvLoop_cons_ret (decode : List Nat → Except GoError (List String)) (o : Outcome)
    (rest : List Outcome) (log : List Request) (x : XHRSession) (err : GoError)
    (h : pollError o = some err) :
    recvLoop decode (o :: rest) log x
      = (("", some err), x, Net.mk rest (log ++ [pollRequest x])) := by
  simp [recvLoop, recvFrame_eq, h, pollRequest]

theorem recvLoop_cons_next (decode : List Nat → Except GoError (List String)) (o : Outcome)
    (rest : List Outcome) (log : List Request) (x : XHRSession) (h : pollError o = none) :
    recvLoop decode (o :: rest) log x
      = recvLoop decode rest (log ++ [pollRequest x])
          { x with opened := x.opened || (frameByte o == some 'o'.toNat) } := by
  simp [recvLoop, recvFrame_eq, h, pollRequest]

/-- The poll loop always returns the empty string with an error, and it changes
neither the queue nor the address of the session; an open session stays open. -/
theorem recvLoop_spec (decode : List Nat → Except GoError (List String)) (script : List Outcome) :
    ∀ (log : List Request) (x : XHRSession),
      (∃ err, (recvLoop decode script log x).1 = ("", some err))
      ∧ (recvLoop decode script log x).2.1.messages = x.messages
      ∧ (recvLoop decode script log x).2.1.sessionURL = x.sessionURL
      ∧ (x.opened = true → (recvLoop decode script log x).2.1.opened = true) := by
  induction script with
  | nil =>
    intro log x
    rw [recvLoop_nil]
    exact ⟨⟨noResponse, rfl⟩, rfl, rfl, fun h => h⟩
  | cons o rest ih =>
    intro log x
    cases h : pollError o with
    | some err =>
      rw [recvLoop_cons_ret decode o rest log x err h]
      exact ⟨⟨err, rfl⟩, rfl, rfl, fun h => h⟩
    | none =>
      rw [recvLoop_cons_next decode o rest log x h]
      obtain ⟨h1, h2, h3, h4⟩ := ih (log ++ [pollRequest x])
        { x with opened := x.opened || (frameByte o == some 'o'.toNat) }
      refine ⟨h1, h2, h3, fun hx => h4 ?_⟩
      simp [hx]

/-- The returned pair of the poll loop depends on the script alone. -/
theorem recvLoop_result (decode : List Nat → Except GoError (List String)) (script : List Outcome) :
    ∀ (log1 log2 : List Request) (x1 x2 : XHRSession),
      (recvLoop decode script log1 x1).1 = (recvLoop decode script log2 x2).1 := by
  induction script with
  | nil =>
    intro log1 log2 x1 x2
    rw [recvLoop_nil, recvLoop_nil]
  | cons o rest ih =>
    intro log1 log2 x1 x2
    cases h : pollError o with
    | some err =>
      rw [recvLoop_cons_ret decode o rest log1 x1 err h, recvLoop_cons_ret decode o rest log2 x2 err h]
    | none =>
      rw [recvLoop_cons_next decode o rest log1 x1 h, recvLoop_cons_next decode o rest log2 x2 h]
      exact ih _ _ _ _

theorem pollError_of_skip (o : Outcome)
    (h : frameByte o = some 'h'.toNat ∨ frameByte o = some 'o'.toNat) : pollError o = none := by
  cases o with
  | fail err => simp [frameByte] at h
  | resp r =>
    rcases r with ⟨status, body, readErr⟩
    cases body with
    | nil => simp [frameByte] at h
    | cons frame payload =>
      simp only [frameByte, List.head?, Option.some.injEq, Char.reduceToNat] at h
      rcases h with h | h <;> simp [pollError, h]

/-- A run of heartbeat and open frames at the head of the script is polled through:
the loop goes on with the rest of the script, one poll logged for each frame, and
opened set when an open frame was among them. -/
theorem recvLoop_skip (decode : List Nat → Except GoError (List String)) (p : List Outcome) :
    ∀ (rest : List Outcome) (log : List Request) (x : XHRSession),
      (∀ o ∈ p, frameByte o = some 'h'.toNat ∨ frameByte o = some 'o'.toNat) →
      recvLoop decode (p ++ rest) log x
        = recvLoop decode rest (log ++ p.map (fun _ => pollRequest x))
            { x with opened := x.opened || p.any (fun o => frameByte o == some 'o'.toNat) } := by
  induction p with
  | nil =>
    intro rest log x _
    cases x
    simp
  | cons o p ih =>
    intro rest log x hp
    have ho := pollError_of_skip o (hp o (List.mem_cons_self o p))
    rw [List.cons_append, recvLoop_cons_next decode o (p ++ rest) log x ho]
    rw [ih rest _ _ (fun q hq => hp q (List.mem_cons_of_mem o hq))]
    simp [pollRequest, Bool.or_assoc]

theorem Recv_of_nil (decode : List Nat → Except GoError (List String)) (x : XHRSession) (n : Net)
    (hq : x.messages = []) : XHRSession.Recv decode x n = recvLoop decode n.script n.log x := by
  simp [XHRSession.Recv, hq]

theorem Send_session (x : XHRSession) (frame : List Nat) (n : Net) :
    (XHRSession.Send x frame n).2.1 = x := by
  unfold XHRSession.Send
  split
  · rfl
  · simp only []
    split <;> rfl

theorem Call.apply_messages (decode : List Nat → Except GoError (List String)) (c : Call)
    (x : XHRSession) (n : Net) (hq : x.messages = []) : (c.apply decode x n).1.messages = [] := by
  cases c with
  | recv =>
    simp only [Call.apply, Recv_of_nil decode x n hq]
    rw [(recvLoop_spec decode n.script n.log x).2.1, hq]
  | send frame =>
    simp only [Call.apply, Send_session, hq]
  | close status reason =>
    simp [Call.apply, XHRSession.Close, hq]

theorem runCalls_messages (decode : List Nat → Except GoError (List String)) (calls : List Call) :
    ∀ (x : XHRSession) (n : Net), x.messages = [] → (runCalls decode calls x n).1.messages = [] := by
  induction calls with
  | nil => intro x n hq; simpa [runCalls] using hq
  | cons c rest ih =>
    intro x n hq
    simp only [runCalls]
    exact ih _ _ (Call.apply_messages decode c x n hq)

/-- The result of NewXHRSession once the /info exchange has succeeded and the
handshake Post has returned a response. -/
theorem NewXHRSession_eq (decodeInfo : Response → Except GoError info)
    (serverID sessionID : String) (opts : DialOptions) (n : Net) (infoResp sessionResp : Response)
    (rest : List Outcome) (i : info)
    (hs : n.script = Outcome.resp infoResp :: Outcome.resp sessionResp :: rest)
    (hi : decodeInfo infoResp = Except.ok i) :
    NewXHRSession decodeInfo serverID sessionID opts n =
      ((match sessionResp.body with
        | [] => Except.error (sessionResp.readErr.getD GoError.noProgress)
        | frame :: _ =>
          if frame = 'o'.toNat then
            Except.ok { sessionURL := opts.BaseURL ++ "/" ++ serverID ++ "/" ++ sessionID,
                        messages := [], opened := true }
          else Except.error (GoError.invalidFrame frame)),
       Net.mk rest (n.log ++ [Request.mk "GET" (opts.BaseURL ++ "/info") none,
         Request.mk "POST" (opts.BaseURL ++ "/" ++ serverID ++ "/" ++ sessionID ++ "/xhr") none])) := by
  rcases sessionResp with ⟨status, body, readErr⟩
  cases body with
  | nil =>
    simp [NewXHRSession, Net.Get, Net.Post, Net.roundTrip, hs, hi, NewReader, Reader.ReadByte]
  | cons frame payload =>
    by_cases hf : frame = 'o'.toNat
    · simp [NewXHRSession, Net.Get, Net.Post, Net.roundTrip, hs, hi, NewReader, Reader.ReadByte, hf]
    · simp only [Char.reduceToNat] at hf
      simp [NewXHRSession, Net.Get, Net.Post, Net.roundTrip, hs, hi, NewReader, Reader.ReadByte, hf]

/-- A session that NewXHRSession returns is open and has an empty queue. -/
theorem NewXHRSession_ok (decodeInfo : Response → Except GoError info)
    (serverID sessionID : String) (opts : DialOptions) (n : Net) (x : XHRSession)
    (h : (NewXHRSession decodeInfo serverID sessionID opts n).1 = Except.ok x) :
    x.messages = [] ∧ x.opened = true := by
  unfold NewXHRSession at h
  split at h
  · simp at h
  · split at h
    · simp at h
    · simp only [] at h
      split at h
      · simp at h
      · split at h
        · simp at h
        · split at h
          · simp at h
          · simp only [Except.ok.injEq] at h
            subst h
            exact ⟨rfl, rfl⟩

theorem Net.Post_log (n : Net) (url : String) (body : Option (List Nat)) :
    (n.Post url body).2.log = n.log ++ [Request.mk "POST" url body] := by
  unfold Net.Post Net.roundTrip
  cases n.script <;> rfl

/-- Send on an open session: one Post to /xhr_send, and the result is the error of
that Post, if any. -/
theorem Send_of_opened (x : XHRSession) (frame : List Nat) (n : Net) (ho : x.opened = true) :
    XHRSession.Send x frame n =
      ((match (n.Post (x.sessionURL ++ "/xhr_send") (some (jsonMarshal [frame]))).1 with
        | Outcome.fail err => some err
        | Outcome.resp _ => none),
       x, (n.Post (x.sessionURL ++ "/xhr_send") (some (jsonMarshal [frame]))).2) := by
  simp only [XHRSession.Send, ho]
  generalize n.Post (x.sessionURL ++ "/xhr_send") (some (jsonMarshal [frame])) = r
  rcases r with ⟨o, n1⟩
  cases o <;> rfl

/-- The poll loop logs at least one poll, after the requests logged before. -/
theorem recvLoop_log (decode : List Nat → Except GoError (List String)) (script : List Outcome) :
    ∀ (log : List Request) (x : XHRSession),
      ∃ more, (recvLoop decode script log x).2.2.log = log ++ pollRequest x :: more := by
  induction script with
  | nil =>
    intro log x
    exact ⟨[], by rw [recvLoop_nil]⟩
  | cons o rest ih =>
    intro log x
    cases h : pollError o with
    | some err => exact ⟨[], by rw [recvLoop_cons_ret decode o rest log x err h]⟩
    | none =>
      rw [recvLoop_cons_next decode o rest log x h]
      obtain ⟨more, hm⟩ := ih (log ++ [pollRequest x])
        { x with opened := x.opened || (frameByte o == some 'o'.toNat) }
      refine ⟨pollRequest x :: more, ?_⟩
      rw [hm]
      simp [pollRequest]

/-! ## Lemmas on the JSON encoding -/

theorem leadByte_spec (b sz lo hi : Nat) (h : leadByte b = some (sz, lo, hi)) :
    128 ≤ lo ∧ hi ≤ 191
    ∧ ((sz = 2 ∧ 194 ≤ b ∧ b ≤ 223)
      ∨ (sz = 3 ∧ 224 ≤ b ∧ b ≤ 239 ∧ (b = 224 → 160 ≤ lo) ∧ (b = 237 → hi ≤ 159))
      ∨ (sz = 4 ∧ 240 ≤ b ∧ b ≤ 244 ∧ (b = 240 → 144 ≤ lo))) := by
  unfold leadByte at h
  split_ifs at h <;> simp only [Option.some.injEq, Prod.mk.injEq] at h <;> omega

theorem DecodeRuneInString_shape (b : Nat) (t : List Nat) (hb : 128 ≤ b) (r : Nat × Nat)
    (hr : DecodeRuneInString (b :: t) = r) :
    r = (RuneError, 1)
    ∨ (∃ s1 t1, t = s1 :: t1 ∧ 128 ≤ s1 ∧ r.2 = 2 ∧ r.1 < 2048)
    ∨ (∃ s1 s2 t2, t = s1 :: s2 :: t2 ∧ 128 ≤ s1 ∧ 128 ≤ s2 ∧ r.2 = 3
        ∧ (r.1 = 8232 → b = 226 ∧ s1 = 128 ∧ s2 = 168)
        ∧ (r.1 = 8233 → b = 226 ∧ s1 = 128 ∧ s2 = 169))
    ∨ (∃ s1 s2 s3 t3, t = s1 :: s2 :: s3 :: t3 ∧ 128 ≤ s1 ∧ 128 ≤ s2 ∧ 128 ≤ s3
        ∧ r.2 = 4 ∧ 65536 ≤ r.1) := by
  simp only [DecodeRuneInString, if_neg (show ¬ b < 128 by omega)] at hr
  rcases h : leadByte b with _ | ⟨sz, lo, hi⟩
  · rw [h] at hr
    exact Or.inl hr.symm
  · obtain ⟨hlo, hhi, hsz⟩ := leadByte_spec b sz lo hi h
    rw [h] at hr
    simp only [] at hr
    split at hr
    · exact Or.inl hr.symm
    · rcases t with _ | ⟨s1, t1⟩
      · exact Or.inl hr.symm
      · simp only [] at hr
        split at hr
        · exact Or.inl hr.symm
        · split at hr
          · subst hr
            refine Or.inr (Or.inl ⟨s1, t1, rfl, by omega, rfl, ?_⟩)
            simp only []
            omega
          · rcases t1 with _ | ⟨s2, t2⟩
            · exact Or.inl hr.symm
            · simp only [] at hr
              split at hr
              · exact Or.inl hr.symm
              · split at hr
                · subst hr
                  refine Or.inr (Or.inr (Or.inl ⟨s1, s2, t2, rfl, by omega, by omega, rfl, ?_, ?_⟩))
                  · simp only []
                    omega
                  · simp only []
                    omega
                · rcases t2 with _ | ⟨s3, t3⟩
                  · exact Or.inl hr.symm
                  · simp only [] at hr
                    split at hr
                    · exact Or.inl hr.symm
                    · subst hr
                      refine Or.inr (Or.inr (Or.inr ⟨s1, s2, s3, t3, rfl, by omega, by omega,
                        by omega, rfl, ?_⟩))
                      simp only []
                      omega

theorem parseStringBody_plain (b : Nat) (rest : List Nat) (h32 : 32 ≤ b) (h34 : b ≠ 34)
    (h92 : b ≠ 92) :
    parseStringBody none (b :: rest)
      = (parseStringBody none rest).map (fun q => (b :: q.1, q.2)) := by
  rw [parseStringBody.eq_def]
  simp [h34, h92, pendingBytes, Nat.not_lt.2 h32]

theorem parseStringBody_escapeByte (b : Nat) (rest : List Nat) (hb : b < 128) :
    parseStringBody none (escapeByte b ++ rest)
      = (parseStringBody none rest).map (fun q => (b :: q.1, q.2)) := by
  interval_cases b <;> first | rfl | (rw [parseStringBody.eq_def]; simp [escapeByte, unescape, pendingBytes])

theorem parseStringBody_replacement (rest : List Nat) :
    parseStringBody none ([92, 'u'.toNat, 'f'.toNat, 'f'.toNat, 'f'.toNat, 'd'.toNat] ++ rest)
      = (parseStringBody none rest).map (fun q => ([239, 191, 189] ++ q.1, q.2)) := rfl

theorem parseStringBody_separator (c : Nat) (rest : List Nat) (hc : c = 8232 ∨ c = 8233) :
    parseStringBody none
        (92 :: 'u'.toNat :: '2'.toNat :: '0'.toNat :: '2'.toNat :: hex (c % 16) :: rest)
      = (parseStringBody none rest).map (fun q => ([226, 128, 128 + c % 64] ++ q.1, q.2)) := by
  rcases hc with hc | hc <;> subst hc <;> rfl

theorem parseStringBody_appendStringLoop (tail : List Nat) :
    ∀ (fuel : Nat) (src : List Nat), src.length ≤ fuel →
      parseStringBody none (appendStringLoop fuel src ++ 34 :: tail)
        = some (toValidLoop fuel src, tail) := by
  intro fuel
  induction fuel with
  | zero =>
    intro src hlen
    rw [parseStringBody.eq_def]
    simp [appendStringLoop, toValidLoop, pendingBytes]
  | succ fuel ih =>
    intro src hlen
    rcases src with _ | ⟨b, t⟩
    · rw [parseStringBody.eq_def]
      simp [appendStringLoop, toValidLoop, pendingBytes]
    · have ht : t.length ≤ fuel := by simpa using hlen
      by_cases hb : b < 128
      · have hd : DecodeRuneInString (b :: t) = (b, 1) := by simp [DecodeRuneInString, hb]
        have hne : b ≠ RuneError := by
          simp only [RuneError]
          omega
        have hv : toValidLoop (fuel + 1) (b :: t) = b :: toValidLoop fuel t := by
          simp [toValidLoop, hd, hne]
        rw [hv]
        simp only [appendStringLoop, if_pos hb]
        by_cases hs : htmlSafeSet b = true
        · rw [if_pos hs]
          simp only [htmlSafeSet, Bool.and_eq_true, decide_eq_true_eq] at hs
          rw [List.cons_append, parseStringBody_plain b _ (by omega) (by omega) (by omega),
            ih t ht]
          rfl
        · rw [if_neg hs, List.append_assoc, parseStringBody_escapeByte b _ hb, ih t ht]
          rfl
      · have hb2 : 128 ≤ b := by omega
        have hshape := DecodeRuneInString_shape b t hb2 _ rfl
        simp only [appendStringLoop, toValidLoop, if_neg hb]
        generalize DecodeRuneInString (b :: t) = r at hshape ⊢
        rcases hshape with h | ⟨s1, t1, rfl, hs1, hsz, hc⟩ | ⟨s1, s2, t2, rfl, hs1, hs2, hsz, h28, h29⟩
            | ⟨s1, s2, s3, t3, rfl, hs1, hs2, hs3, hsz, hc⟩
        · subst h
          simp only [and_self, if_true, List.append_assoc]
          rw [parseStringBody_replacement, ih t ht]
          rfl
        · have ht1 : t1.length ≤ fuel := by
            simp only [List.length_cons] at ht
            omega
          have h1 : ¬ (r.1 = RuneError ∧ r.2 = 1) := by omega
          have h2 : ¬ (r.1 = 8232 ∨ r.1 = 8233) := by omega
          rw [if_neg h1, if_neg h2, if_neg h1, hsz]
          simp only [List.take_succ_cons, List.take_zero, List.drop_succ_cons, List.drop_zero,
            List.cons_append, List.nil_append]
          rw [parseStringBody_plain b _ (by omega) (by omega) (by omega),
            parseStringBody_plain s1 _ (by omega) (by omega) (by omega), ih t1 ht1]
          rfl
        · have ht2 : t2.length ≤ fuel := by
            simp only [List.length_cons] at ht
            omega
          have h1 : ¬ (r.1 = RuneError ∧ r.2 = 1) := by omega
          rw [if_neg h1, if_neg h1, hsz]
          simp only [List.take_succ_cons, List.take_zero, List.drop_succ_cons, List.drop_zero,
            List.cons_append, List.nil_append]
          by_cases h2 : r.1 = 8232 ∨ r.1 = 8233
          · rw [if_pos h2]
            simp only [List.cons_append, List.nil_append]
            rw [parseStringBody_separator r.1 _ h2, ih t2 ht2]
            rcases h2 with h2 | h2
            · obtain ⟨rfl, rfl, rfl⟩ := h28 h2
              rw [h2]
              rfl
            · obtain ⟨rfl, rfl, rfl⟩ := h29 h2
              rw [h2]
              rfl
          · rw [if_neg h2]
            simp only [List.cons_append, List.nil_append]
            rw [parseStringBody_plain b _ (by omega) (by omega) (by omega),
              parseStringBody_plain s1 _ (by omega) (by omega) (by omega),
              parseStringBody_plain s2 _ (by omega) (by omega) (by omega), ih t2 ht2]
            rfl
        · have ht3 : t3.length ≤ fuel := by
            simp only [List.length_cons] at ht
            omega
          have h1 : ¬ (r.1 = RuneError ∧ r.2 = 1) := by omega
          have h2 : ¬ (r.1 = 8232 ∨ r.1 = 8233) := by omega
          rw [if_neg h1, if_neg h2, if_neg h1, hsz]
          simp only [List.take_succ_cons, List.take_zero, List.drop_succ_cons, List.drop_zero,
            List.cons_append, List.nil_append]
          rw [parseStringBody_plain b _ (by omega) (by omega) (by omega),
            parseStringBody_plain s1 _ (by omega) (by omega) (by omega),
            parseStringBody_plain s2 _ (by omega) (by omega) (by omega),
            parseStringBody_plain s3 _ (by omega) (by omega) (by omega), ih t3 ht3]
          rfl

/-- The decoder consumes at least one byte of a string that is not empty. -/
theorem DecodeRuneInString_size_pos (b : Nat) (t : List Nat) :
    1 ≤ (DecodeRuneInString (b :: t)).2 := by
  by_cases hb : b < 128
  · simp [DecodeRuneInString, hb]
  · rcases DecodeRuneInString_shape b t (by omega) _ rfl with h | ⟨_, _, _, _, h, _⟩
        | ⟨_, _, _, _, _, _, h, _⟩ | ⟨_, _, _, _, _, _, _, _, h, _⟩
    · rw [h]
    · omega
    · omega
    · omega

/-- On a valid string nothing is replaced. -/
theorem toValidLoop_of_valid :
    ∀ (fuel : Nat) (src : List Nat), src.length ≤ fuel → validLoop fuel src = true →
      toValidLoop fuel src = src := by
  intro fuel
  induction fuel with
  | zero =>
    intro src hlen _
    rcases src with _ | ⟨b, t⟩
    · rfl
    · simp at hlen
  | succ fuel ih =>
    intro src hlen hv
    rcases src with _ | ⟨b, t⟩
    · rfl
    · have hpos := DecodeRuneInString_size_pos b t
      simp only [validLoop] at hv
      simp only [toValidLoop]
      split at hv
      · simp at hv
      · rename_i hne
        rw [if_neg hne, ih _ ?_ hv, List.take_append_drop]
        simp only [List.length_drop, List.length_cons] at hlen ⊢
        omega

/-- The text that json.Marshal writes for one string is JSON: read back, it is the
array of that one string, invalid bytes replaced by U+FFFD. -/
theorem parseStringArray_jsonMarshal (s : List Nat) :
    parseStringArray (jsonMarshal [s]) = some [toValidUTF8 s] := by
  have h := parseStringBody_appendStringLoop [93] s.length s (Nat.le_refl _)
  simp only [parseStringArray, jsonMarshal, jsonElements, appendString, skipSpace,
    Char.reduceToNat, List.cons_append, List.append_assoc, List.nil_append, List.length_cons,
    parseElements, toValidUTF8]
  simp [List.dropWhile, h]

/-! ## The claims -/

/-- C1 (evaluation of the code): for every session with an empty queue, a poll
answered by an Array frame (tag a followed by any payload) makes Recv return the
empty string with an error after that one poll, the session unchanged: the
payload is read into a slice of length 0 and json.Unmarshal rejects the empty
data, so none of the strings of the frame is queued or delivered. -/
theorem Recv_array_frame_returns_error (decode : List Nat → Except GoError (List String))
    (x : XHRSession) (status : Nat) (payload : List Nat) (readErr : Option GoError)
    (script : List Outcome) (log : List Request) (hq : x.messages = []) :
    XHRSession.Recv decode x
        (Net.mk (Outcome.resp (Response.mk status ('a'.toNat :: payload) readErr) :: script) log)
      = (("", some (if payload.length > 0 then GoError.unexpectedEndOfJSON
                    else readErr.getD GoError.unexpectedEndOfJSON)),
         x, Net.mk script (log ++ [pollRequest x])) := by
  rw [Recv_of_nil decode x _ hq]
  apply recvLoop_cons_ret
  simp only [pollError, Char.reduceToNat]
  simp
  split <;> rfl

/-- Witness of C1 at the poll body a["hello","world"]: Recv returns the empty string
and the JSON error, and the queue stays empty. -/
theorem Recv_array_frame_returns_error_witness :
    openSession.messages = [] ∧
    XHRSession.Recv helloWorldDecoder openSession
        (Net.mk [Outcome.resp (textResponse 200 "a[\"hello\",\"world\"]")] [])
      = (("", some GoError.unexpectedEndOfJSON), openSession,
         Net.mk [] [pollRequest openSession]) :=
  ⟨rfl, Recv_array_frame_returns_error helloWorldDecoder openSession 200
    (asciiBytes "[\"hello\",\"world\"]") none [] [] rfl⟩

/-- C2: for every session whose queue is m :: rest, Recv returns m with no error,
leaves the queue equal to rest, leaves opened (and the address) unchanged, and
issues no request: the client is as before. -/
theorem Recv_queued_message (decode : List Nat → Except GoError (List String))
    (x : XHRSession) (n : Net) (m : String) (rest : List String) (hq : x.messages = m :: rest) :
    (XHRSession.Recv decode x n).1 = (m, none)
    ∧ (XHRSession.Recv decode x n).2.1.messages = rest
    ∧ (XHRSession.Recv decode x n).2.1.opened = x.opened
    ∧ (XHRSession.Recv decode x n).2.1.sessionURL = x.sessionURL
    ∧ (XHRSession.Recv decode x n).2.2 = n := by
  simp [XHRSession.Recv, hq]

/-- Witness of C2: a queue of two messages and a client with a scripted response. -/
theorem Recv_queued_message_witness :
    (XHRSession.mk "u" ["m1", "m2"] true).messages = "m1" :: ["m2"] ∧
    (XHRSession.Recv helloWorldDecoder (XHRSession.mk "u" ["m1", "m2"] true)
        (Net.mk [Outcome.resp (textResponse 200 "h")] [])).2.2
      = Net.mk [Outcome.resp (textResponse 200 "h")] [] :=
  ⟨rfl, (Recv_queued_message helloWorldDecoder (XHRSession.mk "u" ["m1", "m2"] true)
    (Net.mk [Outcome.resp (textResponse 200 "h")] []) "m1" ["m2"] rfl).2.2.2.2⟩

/-- C3 (counterexample): an open session with an empty queue polls and is answered
by the Close frame c[3000,"Go away!"]. Recv does not leave the loop there: it
polls a second time and returns the error of that poll; opened is still true; and
the following Send("x") is not refused with the session-not-open error, it posts
its request to /xhr_send. -/
theorem Recv_close_frame_not_closed :
    (XHRSession.Recv helloWorldDecoder openSession
        (Net.mk [Outcome.resp (textResponse 200 "c[3000,\"Go away!\"]")] [])).1
      = ("", some noResponse)
    ∧ (XHRSession.Recv helloWorldDecoder openSession
        (Net.mk [Outcome.resp (textResponse 200 "c[3000,\"Go away!\"]")] [])).2.2.log
      = [pollRequest openSession, pollRequest openSession]
    ∧ (XHRSession.Recv helloWorldDecoder openSession
        (Net.mk [Outcome.resp (textResponse 200 "c[3000,\"Go away!\"]")] [])).2.1.opened = true
    ∧ (XHRSession.Send
        (XHRSession.Recv helloWorldDecoder openSession
          (Net.mk [Outcome.resp (textResponse 200 "c[3000,\"Go away!\"]")] [])).2.1
        (asciiBytes "x")
        (Net.mk [Outcome.resp (textResponse 204 "")] [])).1 ≠ some GoError.notOpened
    ∧ (XHRSession.Send
        (XHRSession.Recv helloWorldDecoder openSession
          (Net.mk [Outcome.resp (textResponse 200 "c[3000,\"Go away!\"]")] [])).2.1
        (asciiBytes "x")
        (Net.mk [Outcome.resp (textResponse 204 "")] [])).2.2.log
      = [Request.mk "POST" (openSession.sessionURL ++ "/xhr_send") (some (asciiBytes "[\"x\"]"))] := by
  refine ⟨rfl, rfl, rfl, ?_, rfl⟩
  decide

/-- C3 (amended): for every open session with an empty queue, when the poll is
answered by a Close frame (tag c followed by any payload), Recv appends no message
and the session stays open; a following Send("x") passes the opened gate and
posts the body ["x"] to sessionURL + "/xhr_send". -/
theorem Recv_close_frame_session_stays_open (decode : List Nat → Except GoError (List String))
    (x : XHRSession) (status : Nat) (payload : List Nat) (readErr : Option GoError)
    (script : List Outcome) (log : List Request) (n : Net)
    (ho : x.opened = true) (hq : x.messages = []) :
    (XHRSession.Recv decode x
        (Net.mk (Outcome.resp (Response.mk status ('c'.toNat :: payload) readErr) :: script) log)).2.1.messages = []
    ∧ (XHRSession.Recv decode x
        (Net.mk (Outcome.resp (Response.mk status ('c'.toNat :: payload) readErr) :: script) log)).2.1.opened = true
    ∧ (XHRSession.Send
        (XHRSession.Recv decode x
          (Net.mk (Outcome.resp (Response.mk status ('c'.toNat :: payload) readErr) :: script) log)).2.1
        (asciiBytes "x") n).2.2.log
      = n.log ++ [Request.mk "POST" (x.sessionURL ++ "/xhr_send") (some (asciiBytes "[\"x\"]"))] := by
  rw [Recv_of_nil decode x _ hq]
  obtain ⟨_, h2, h3, h4⟩ := recvLoop_spec decode
    (Outcome.resp (Response.mk status ('c'.toNat :: payload) readErr) :: script) log x
  refine ⟨by rw [h2, hq], h4 ho, ?_⟩
  have hj : jsonMarshal [asciiBytes "x"] = asciiBytes "[\"x\"]" := rfl
  rw [Send_of_opened _ (asciiBytes "x") n (h4 ho), Net.Post_log, h3, hj]

/-- Witness of C3 (amended) at the Close frame c[3000,"Go away!"]. -/
theorem Recv_close_frame_session_stays_open_witness :
    openSession.opened = true ∧ openSession.messages = [] ∧
    (XHRSession.Recv helloWorldDecoder openSession
        (Net.mk (Outcome.resp (Response.mk 200 ('c'.toNat :: asciiBytes "[3000,\"Go away!\"]") none)
          :: []) [])).2.1.opened = true :=
  ⟨rfl, rfl, (Recv_close_frame_session_stays_open helloWorldDecoder openSession 200
    (asciiBytes "[3000,\"Go away!\"]") none [] [] (Net.mk [] []) rfl rfl).2.1⟩

/-- C4: for every session whose opened flag is false and every message, Send
returns the session-not-open error, issues no request (the client is as before)
and leaves the session unchanged. -/
theorem Send_not_opened (x : XHRSession) (frame : List Nat) (n : Net) (ho : x.opened = false) :
    XHRSession.Send x frame n = (some GoError.notOpened, x, n) := by
  simp [XHRSession.Send, ho]

/-- Witness of C4: a session that is not open, asked to send "x". -/
theorem Send_not_opened_witness :
    closedSession.opened = false ∧
    XHRSession.Send closedSession (asciiBytes "x") (Net.mk [Outcome.resp (textResponse 204 "")] [])
      = (some GoError.notOpened, closedSession, Net.mk [Outcome.resp (textResponse 204 "")] []) :=
  ⟨rfl, Send_not_opened closedSession (asciiBytes "x")
    (Net.mk [Outcome.resp (textResponse 204 "")] []) rfl⟩

/-- C5: for every open session and every message s, Send issues exactly one
request, a POST to sessionURL + "/xhr_send" whose body is the JSON encoding of the
one-element array [s]: the body is what json.Marshal writes for the slice, and
that text, read back by the JSON grammar, is the array of the one string s (with
U+FFFD in place of every byte of s that is not valid UTF-8, and s itself when s is
valid UTF-8). For s = "ping" the body is ["ping"], of 8 bytes. -/
theorem Send_wire_format (x : XHRSession) (s : List Nat) (n : Net) (ho : x.opened = true) :
    (XHRSession.Send x s n).2.2.log
      = n.log ++ [Request.mk "POST" (x.sessionURL ++ "/xhr_send") (some (jsonMarshal [s]))]
    ∧ parseStringArray (jsonMarshal [s]) = some [toValidUTF8 s]
    ∧ (ValidString s = true → parseStringArray (jsonMarshal [s]) = some [s])
    ∧ jsonMarshal [asciiBytes "ping"] = asciiBytes "[\"ping\"]"
    ∧ (jsonMarshal [asciiBytes "ping"]).length = 8 := by
  refine ⟨?_, parseStringArray_jsonMarshal s, ?_, rfl, rfl⟩
  · rw [Send_of_opened x s n ho, Net.Post_log]
  · intro hv
    rw [parseStringArray_jsonMarshal s, toValidUTF8,
      toValidLoop_of_valid s.length s (Nat.le_refl _) hv]

/-- Witness of C5: the open session sends a message with a double quote, a
backspace, a less-than sign, a two-byte character and a byte that is not UTF-8.
The body escapes them, and read back it is the message with U+FFFD for that byte. -/
theorem Send_wire_format_witness :
    openSession.opened = true
    ∧ (XHRSession.Send openSession [97, 34, 8, 60, 195, 169, 255]
        (Net.mk [Outcome.resp (textResponse 204 "")] [])).2.2.log
      = [] ++ [Request.mk "POST" (openSession.sessionURL ++ "/xhr_send")
                (some (jsonMarshal [[97, 34, 8, 60, 195, 169, 255]]))]
    ∧ jsonMarshal [[97, 34, 8, 60, 195, 169, 255]]
      = asciiBytes "[\"a\\\"\\b\\u003c" ++ [195, 169] ++ asciiBytes "\\ufffd\"]"
    ∧ parseStringArray (jsonMarshal [[97, 34, 8, 60, 195, 169, 255]])
      = some [toValidUTF8 [97, 34, 8, 60, 195, 169, 255]]
    ∧ toValidUTF8 [97, 34, 8, 60, 195, 169, 255] = [97, 34, 8, 60, 195, 169, 239, 191, 189] :=
  ⟨rfl, (Send_wire_format openSession [97, 34, 8, 60, 195, 169, 255]
    (Net.mk [Outcome.resp (textResponse 204 "")] []) rfl).1, rfl,
    (Send_wire_format openSession [97, 34, 8, 60, 195, 169, 255]
    (Net.mk [Outcome.resp (textResponse 204 "")] []) rfl).2.1, rfl⟩

/-- C6 (counterexample): the open session sends "x" and the request completes with
status 500, which is not 2xx; Send returns no error all the same. -/
theorem Send_status_500_returns_nil :
    (XHRSession.Send openSession (asciiBytes "x")
        (Net.mk [Outcome.resp (textResponse 500 "")] [])).1 = none
    ∧ ¬ (200 ≤ (textResponse 500 "").status ∧ (textResponse 500 "").status < 300) := by
  refine ⟨rfl, ?_⟩
  decide

/-- C6 (amended): for every open session and message, when the send request
completes with an HTTP response, Send returns no error whatever the status of the
response, 2xx or not; it returns an error only when the request itself fails, and
then that error. -/
theorem Send_ignores_status (x : XHRSession) (frame : List Nat) (n : Net) (o : Outcome)
    (rest : List Outcome) (ho : x.opened = true) (hs : n.script = o :: rest) :
    (∀ r, o = Outcome.resp r → (XHRSession.Send x frame n).1 = none)
    ∧ (∀ err, o = Outcome.fail err → (XHRSession.Send x frame n).1 = some err) := by
  rw [Send_of_opened x frame n ho]
  simp only [Net.Post, Net.roundTrip, hs]
  constructor
  · intro r hr
    subst hr
    rfl
  · intro err he
    subst he
    rfl

/-- Witness of C6 (amended): statuses 204 and 500 both give no error. -/
theorem Send_ignores_status_witness :
    openSession.opened = true
    ∧ (Net.mk [Outcome.resp (textResponse 500 "")] []).script
        = Outcome.resp (textResponse 500 "") :: []
    ∧ (XHRSession.Send openSession (asciiBytes "x")
        (Net.mk [Outcome.resp (textResponse 500 "")] [])).1 = none :=
  ⟨rfl, rfl, (Send_ignores_status openSession (asciiBytes "x")
    (Net.mk [Outcome.resp (textResponse 500 "")] [])
    (Outcome.resp (textResponse 500 "")) [] rfl rfl).1 (textResponse 500 "") rfl⟩

/-- C7 (counterexample): Close on the open session returns an error, it does not
succeed, and opened is still true afterwards. -/
theorem Close_open_session_fails :
    (XHRSession.Close openSession 1000 "bye").1 ≠ none
    ∧ (XHRSession.Close openSession 1000 "bye").2.opened ≠ false := by
  decide

/-- C7 (amended): for every session, every status code and every reason, Close
returns the error "not implemented yet" and leaves the session as it was; a
second Close does the same, so a session whose opened flag is false keeps it
false. -/
theorem Close_not_implemented (x : XHRSession) (status : Nat) (reason : String) :
    XHRSession.Close x status reason = (some GoError.notImplemented, x)
    ∧ XHRSession.Close (XHRSession.Close x status reason).2 status reason
        = XHRSession.Close x status reason
    ∧ (XHRSession.Close x status reason).2.opened = x.opened :=
  ⟨rfl, rfl, rfl⟩

/-- C8: when the /info exchange has succeeded and the handshake POST to
sessionURL + "/xhr" has returned a response, NewXHRSession returns a session if
and only if the first byte of the body is o; that session has the composed
address, opened = true and an empty queue; for any other first byte and for an
empty body it returns an error and no session. It has issued the GET and the POST. -/
theorem NewXHRSession_handshake (decodeInfo : Response → Except GoError info)
    (serverID sessionID : String) (opts : DialOptions) (n : Net) (infoResp sessionResp : Response)
    (rest : List Outcome) (i : info)
    (hs : n.script = Outcome.resp infoResp :: Outcome.resp sessionResp :: rest)
    (hi : decodeInfo infoResp = Except.ok i) :
    ((∃ x, (NewXHRSession decodeInfo serverID sessionID opts n).1 = Except.ok x)
        ↔ sessionResp.body.head? = some 'o'.toNat)
    ∧ (sessionResp.body.head? = some 'o'.toNat →
        (NewXHRSession decodeInfo serverID sessionID opts n).1
          = Except.ok { sessionURL := opts.BaseURL ++ "/" ++ serverID ++ "/" ++ sessionID,
                        messages := [], opened := true })
    ∧ (sessionResp.body.head? ≠ some 'o'.toNat →
        ∃ err, (NewXHRSession decodeInfo serverID sessionID opts n).1 = Except.error err)
    ∧ (NewXHRSession decodeInfo serverID sessionID opts n).2.log
        = n.log ++ [Request.mk "GET" (opts.BaseURL ++ "/info") none,
            Request.mk "POST" (opts.BaseURL ++ "/" ++ serverID ++ "/" ++ sessionID ++ "/xhr") none] := by
  rw [NewXHRSession_eq decodeInfo serverID sessionID opts n infoResp sessionResp rest i hs hi]
  rcases sessionResp with ⟨status, body, readErr⟩
  cases body with
  | nil => simp
  | cons frame payload =>
    by_cases hf : frame = 'o'.toNat
    · simp [hf]
    · simp only [Char.reduceToNat] at hf
      simp [hf]

/-- Witness of C8: the handshake body "o" opens a session. -/
theorem NewXHRSession_handshake_witness :
    (Net.mk [Outcome.resp (textResponse 200 "info"), Outcome.resp (textResponse 200 "o")] []).script
      = Outcome.resp (textResponse 200 "info") :: Outcome.resp (textResponse 200 "o") :: []
    ∧ anyInfo (textResponse 200 "info")
      = Except.ok { Websocket := true, CookieNeeded := false, Origins := ["*:*"], Entropy := 7 }
    ∧ (NewXHRSession anyInfo "123" "abcdefgh" (DialOptions.mk "http://localhost:8080/sockjs" 5)
        (Net.mk [Outcome.resp (textResponse 200 "info"), Outcome.resp (textResponse 200 "o")] [])).1
      = Except.ok openSession :=
  ⟨rfl, rfl, (NewXHRSession_handshake anyInfo "123" "abcdefgh"
    (DialOptions.mk "http://localhost:8080/sockjs" 5)
    (Net.mk [Outcome.resp (textResponse 200 "info"), Outcome.resp (textResponse 200 "o")] [])
    (textResponse 200 "info") (textResponse 200 "o") []
    { Websocket := true, CookieNeeded := false, Origins := ["*:*"], Entropy := 7 }
    rfl rfl).2.1 rfl⟩

/-- C9: for every session with an empty queue and every poll script p ++ rest in
which every outcome of p is a Heartbeat (h) or Open (o) frame, Recv delivers
nothing for the frames of p and polls once more after each of them. The request
log it returns is the old log, then one poll for each frame of p, then at least
one further poll; the returned string is empty. When rest is empty the further
poll fails and Recv returns that failure after exactly one poll per frame of p
plus one; when the first outcome of rest makes an iteration return, Recv returns
just that, again after exactly one poll per frame of p plus one, with the rest of
the script left over. Recv ends as Recv on rest alone does, started after one
logged poll per frame of p and with opened set if p holds an Open frame, and it
returns the same pair as Recv on rest from the session as it was. In one
iteration a Heartbeat frame changes no state and an Open frame only sets opened
to true. -/
theorem Recv_skips_heartbeat_and_open (decode : List Nat → Except GoError (List String))
    (x : XHRSession) (p rest : List Outcome) (log : List Request) (hq : x.messages = [])
    (hp : ∀ o ∈ p, frameByte o = some 'h'.toNat ∨ frameByte o = some 'o'.toNat) :
    XHRSession.Recv decode x (Net.mk (p ++ rest) log)
      = XHRSession.Recv decode
          { x with opened := x.opened || p.any (fun o => frameByte o == some 'o'.toNat) }
          (Net.mk rest (log ++ p.map (fun _ => pollRequest x)))
    ∧ (XHRSession.Recv decode x (Net.mk (p ++ rest) log)).1
        = (XHRSession.Recv decode x (Net.mk rest log)).1
    ∧ (XHRSession.Recv decode x (Net.mk (p ++ rest) log)).2.1.messages = []
    ∧ (∀ o, frameByte o = some 'h'.toNat → recvFrame decode x o = Flow.next x)
    ∧ (∀ o, frameByte o = some 'o'.toNat →
        recvFrame decode x o = Flow.next { x with opened := true })
    ∧ (XHRSession.Recv decode x (Net.mk (p ++ rest) log)).1.1 = ""
    ∧ (∃ more, (XHRSession.Recv decode x (Net.mk (p ++ rest) log)).2.2.log
        = log ++ p.map (fun _ => pollRequest x) ++ pollRequest x :: more)
    ∧ (rest = [] →
        XHRSession.Recv decode x (Net.mk (p ++ rest) log)
          = (("", some noResponse),
             { x with opened := x.opened || p.any (fun o => frameByte o == some 'o'.toNat) },
             Net.mk [] (log ++ p.map (fun _ => pollRequest x) ++ [pollRequest x])))
    ∧ (∀ (o : Outcome) (rest1 : List Outcome) (msg : String) (err : Option GoError)
        (x1 : XHRSession), rest = o :: rest1 →
        recvFrame decode
          { x with opened := x.opened || p.any (fun o => frameByte o == some 'o'.toNat) } o
          = Flow.ret msg err x1 →
        XHRSession.Recv decode x (Net.mk (p ++ rest) log)
          = ((msg, err), x1,
             Net.mk rest1 (log ++ p.map (fun _ => pollRequest x) ++ [pollRequest x])))
    ∧ (p.any (fun o => frameByte o == some 'o'.toNat) = true →
        (XHRSession.Recv decode x (Net.mk (p ++ rest) log)).2.1.opened = true)
    ∧ (XHRSession.Recv decode x (Net.mk (p ++ rest) log)).2.1.sessionURL = x.sessionURL := by
  have hq2 : ({ x with opened := x.opened || p.any (fun o => frameByte o == some 'o'.toNat) }
      : XHRSession).messages = [] := hq
  have hskip : XHRSession.Recv decode x (Net.mk (p ++ rest) log)
      = recvLoop decode rest (log ++ p.map (fun _ => pollRequest x))
          { x with opened := x.opened || p.any (fun o => frameByte o == some 'o'.toNat) } := by
    rw [Recv_of_nil decode x _ hq]
    exact recvLoop_skip decode p rest log x hp
  refine ⟨?_, ?_, ?_, ?_, ?_, ?_, ?_, ?_, ?_, ?_, ?_⟩
  · rw [hskip, Recv_of_nil decode _ _ hq2]
  · rw [hskip, Recv_of_nil decode x _ hq]
    exact recvLoop_result decode rest _ _ _ _
  · rw [Recv_of_nil decode x _ hq, (recvLoop_spec decode _ _ x).2.1, hq]
  · intro o ho
    rw [recvFrame_eq, pollError_of_skip o (Or.inl ho), ho]
    cases x
    simp
  · intro o ho
    rw [recvFrame_eq, pollError_of_skip o (Or.inr ho), ho]
    simp
  · rw [hskip]
    obtain ⟨⟨err, he⟩, _⟩ := recvLoop_spec decode rest
      (log ++ p.map (fun _ => pollRequest x))
      { x with opened := x.opened || p.any (fun o => frameByte o == some 'o'.toNat) }
    rw [he]
  · rw [hskip]
    exact recvLoop_log decode rest _ _
  · intro hr
    rw [hskip, hr, recvLoop_nil]
    rfl
  · intro o rest1 msg err x1 hr hf
    rw [hskip, hr]
    simp only [recvLoop, hf]
    rfl
  · intro hany
    rw [hskip]
    exact (recvLoop_spec decode rest _ _).2.2.2 (by rw [hany, Bool.or_true])
  · rw [hskip]
    exact (recvLoop_spec decode rest _ _).2.2.1

/-- Witness of C9: a session that is not open polls through a heartbeat, an Open
frame and a heartbeat, and returns at the invalid frame after them: four polls,
the script used up, opened set by the Open frame. -/
theorem Recv_skips_heartbeat_and_open_witness :
    closedSession.messages = []
    ∧ (∀ o ∈ [Outcome.resp (textResponse 200 "h"), Outcome.resp (textResponse 200 "o"),
              Outcome.resp (textResponse 200 "h")],
        frameByte o = some 'h'.toNat ∨ frameByte o = some 'o'.toNat)
    ∧ XHRSession.Recv helloWorldDecoder closedSession
        (Net.mk ([Outcome.resp (textResponse 200 "h"), Outcome.resp (textResponse 200 "o"),
                  Outcome.resp (textResponse 200 "h")] ++ [Outcome.resp (textResponse 200 "x")]) [])
      = (("", some GoError.invalidFrameType), openSession,
          Net.mk [] [pollRequest closedSession, pollRequest closedSession,
                     pollRequest closedSession, pollRequest closedSession]) :=
  ⟨rfl, by decide,
    (Recv_skips_heartbeat_and_open helloWorldDecoder closedSession
      [Outcome.resp (textResponse 200 "h"), Outcome.resp (textResponse 200 "o"),
        Outcome.resp (textResponse 200 "h")] [Outcome.resp (textResponse 200 "x")] [] rfl
      (by decide)).2.2.2.2.2.2.2.2.1 (Outcome.resp (textResponse 200 "x")) []
      "" (some GoError.invalidFrameType) openSession rfl rfl⟩

/-- C10: for every session with an empty queue and every finite script of poll
outcomes (a poll beyond the script fails), Recv returns the empty string with a
non-nil error and leaves the queue empty; no iteration of the poll loop leaves the
loop, it goes on or returns an error, so the statements after the loop are never
reached; and the queue of a session that NewXHRSession has created stays empty
under every sequence of Recv, Send and Close calls. -/
theorem Recv_empty_queue_never_delivers (decode : List Nat → Except GoError (List String)) :
    (∀ (x : XHRSession) (n : Net), x.messages = [] →
      (XHRSession.Recv decode x n).1.1 = ""
      ∧ (XHRSession.Recv decode x n).1.2 ≠ none
      ∧ (XHRSession.Recv decode x n).2.1.messages = [])
    ∧ (∀ (x x1 : XHRSession) (o : Outcome), recvFrame decode x o ≠ Flow.leave x1)
    ∧ (∀ (x : XHRSession) (o : Outcome),
        (∃ x1, recvFrame decode x o = Flow.next x1 ∧ x1.messages = x.messages)
        ∨ (∃ err, recvFrame decode x o = Flow.ret "" (some err) x))
    ∧ (∀ (decodeInfo : Response → Except GoError info) (serverID sessionID : String)
        (opts : DialOptions) (n : Net) (x : XHRSession) (calls : List Call) (n1 : Net),
        (NewXHRSession decodeInfo serverID sessionID opts n).1 = Except.ok x →
        (runCalls decode calls x n1).1.messages = []) := by
  refine ⟨?_, ?_, ?_, ?_⟩
  · intro x n hq
    rw [Recv_of_nil decode x n hq]
    obtain ⟨⟨err, he⟩, h2, _, _⟩ := recvLoop_spec decode n.script n.log x
    refine ⟨?_, ?_, ?_⟩
    · rw [he]
    · rw [he]
      simp
    · rw [h2, hq]
  · intro x x1 o
    exact recvFrame_ne_leave decode x x1 o
  · intro x o
    rw [recvFrame_eq]
    cases h : pollError o with
    | some err => exact Or.inr ⟨err, rfl⟩
    | none => exact Or.inl ⟨_, rfl, rfl⟩
  · intro decodeInfo serverID sessionID opts n x calls n1 hx
    exact runCalls_messages decode calls x n1
      (NewXHRSession_ok decodeInfo serverID sessionID opts n x hx).1

/-- Witness of C10: the open session, polled with a heartbeat, an Array frame and
a Close frame in the script, receives nothing; and the session of a handshake
answered with "o" still has an empty queue after Recv, Send, Close and Recv. -/
theorem Recv_empty_queue_never_delivers_witness :
    openSession.messages = []
    ∧ (XHRSession.Recv helloWorldDecoder openSession
        (Net.mk [Outcome.resp (textResponse 200 "h"),
                 Outcome.resp (textResponse 200 "a[\"hello\",\"world\"]"),
                 Outcome.resp (textResponse 200 "c[3000,\"Go away!\"]")] [])).2.1.messages = []
    ∧ (NewXHRSession anyInfo "123" "abcdefgh" (DialOptions.mk "http://localhost:8080/sockjs" 5)
        (Net.mk [Outcome.resp (textResponse 200 "info"), Outcome.resp (textResponse 200 "o")] [])).1
      = Except.ok openSession
    ∧ (runCalls helloWorldDecoder [Call.recv, Call.send (asciiBytes "x"), Call.close 1000 "bye", Call.recv]
        openSession
        (Net.mk [Outcome.resp (textResponse 200 "a[\"hello\",\"world\"]"),
                 Outcome.resp (textResponse 204 "")] [])).1.messages = [] :=
  ⟨rfl, ((Recv_empty_queue_never_delivers helloWorldDecoder).1 openSession
    (Net.mk [Outcome.resp (textResponse 200 "h"),
             Outcome.resp (textResponse 200 "a[\"hello\",\"world\"]"),
             Outcome.resp (textResponse 200 "c[3000,\"Go away!\"]")] []) rfl).2.2,
    rfl,
    (Recv_empty_queue_never_delivers helloWorldDecoder).2.2.2 anyInfo "123" "abcdefgh"
      (DialOptions.mk "http://localhost:8080/sockjs" 5)
      (Net.mk [Outcome.resp (textResponse 200 "info"), Outcome.resp (textResponse 200 "o")] [])
      openSession [Call.recv, Call.send (asciiBytes "x"), Call.close 1000 "bye", Call.recv]
      (Net.mk [Outcome.resp (textResponse 200 "a[\"hello\",\"world\"]"),
               Outcome.resp (textResponse 204 "")] []) rfl⟩

end sockjsclient
